import Mathlib

/-!
Shallow embedding of the Correlation & Resilient-Fetch core of the
AI-Crypto-Newsletter repository, together with theorems settling the
frozen claims about it.

Conventions of the embedding:
  * JavaScript numbers are modelled as rationals (`ℚ`); every concrete
    value appearing in the claims is exactly representable.
  * `Number.prototype.toFixed` is modelled after the ECMAScript
    algorithm: a negative number is formatted as `"-"` followed by the
    formatting of its negation, and for a non-negative number the scaled
    value is rounded to the nearest integer with ties toward the larger
    integer.
  * Timestamps (`publishedAt`, cache clock) are integers (milliseconds).
  * A JavaScript value that may or may not be an array is modelled by
    `JsInput`; functions that `throw` return `Except String`.
-/

/- The rational-number operations of the standard library are marked
irreducible, which blocks kernel evaluation of the concrete format
strings below; restore reducibility so that closed instances can be
settled by `decide`. -/
set_option allowUnsafeReducibility true in
attribute [semireducible] Rat.mul Rat.inv Rat.add Rat.sub Rat.ofScientific

/-- Pads a digit string on the left with zeros up to the given length. -/
def padLeftZeros (s : String) (len : Nat) : String :=
  if len ≤ s.length then s else String.mk (List.replicate (len - s.length) '0') ++ s

/-- Renders the natural number `n` as a fixed-point decimal with `digits`
fractional digits (`n` is the value already scaled by `10 ^ digits`). -/
def fixedDigitsString (digits : Nat) (n : Nat) : String :=
  if digits = 0 then toString n
  else toString (n / 10 ^ digits) ++ "." ++ padLeftZeros (toString (n % 10 ^ digits)) digits

/-- ECMAScript `toFixed` on a non-negative rational: round
`q * 10 ^ digits` to the nearest integer, ties toward the larger one. -/
def toFixedNonneg (digits : Nat) (q : ℚ) : String :=
  fixedDigitsString digits (Rat.floor (q * (10 : ℚ) ^ digits + 1/2)).toNat

/-- Model of JavaScript `Number.prototype.toFixed` (ECMAScript: a negative
number is `"-"` followed by the formatting of its negation). -/
def toFixed (digits : Nat) (q : ℚ) : String :=
  if q < 0 then "-" ++ toFixedNonneg digits (-q) else toFixedNonneg digits q

/-- Inserts `,` thousands separators into a digit list given most
significant digit first. -/
def groupDigitsAux (ds : List Char) : List Char :=
  if _h : ds.length ≤ 3 then ds
  else groupDigitsAux (ds.take (ds.length - 3)) ++ [','] ++ ds.drop (ds.length - 3)
termination_by ds.length
decreasing_by
  simp only [List.length_take]
  omega

/-- Thousands grouping of a natural number, e.g. `1234567 ↦ "1,234,567"`. -/
def groupDigits (n : Nat) : String :=
  String.mk (groupDigitsAux (toString n).data)

/-- Drops trailing `'0'` characters from a string (used for locale
fraction-digit trimming). -/
def trimTrailingZeros (s : String) : String :=
  String.mk (s.data.reverse.dropWhile (· = '0')).reverse

/-- Model of `Number.prototype.toLocaleString()` under the default en-US
locale of the runtime: thousands separators, at most 3 fractional digits
(rounded half away from zero), trailing fractional zeros dropped. -/
def toLocaleStringNonneg (q : ℚ) : String :=
  let scaled : Nat := (Rat.floor (q * 1000 + 1/2)).toNat
  let frac : Nat := scaled % 1000
  if frac = 0 then groupDigits (scaled / 1000)
  else groupDigits (scaled / 1000) ++ "." ++ trimTrailingZeros (padLeftZeros (toString frac) 3)

/-- Signed version of `toLocaleStringNonneg`. -/
def toLocaleString (q : ℚ) : String :=
  if q < 0 then "-" ++ toLocaleStringNonneg (-q) else toLocaleStringNonneg q

/-! ## Data model (from `coingecko.js` / `cryptopanic.js` transforms) -/

/-- Vote counts attached to a news item. -/
structure Votes where
  positive : Nat
  negative : Nat
  important : Nat
deriving DecidableEq, Repr

/-- A market snapshot as produced by the market-data adapter
(`transformCoinData`). -/
structure MarketSnapshot where
  id : String
  symbol : String
  name : String
  currentPrice : ℚ
  priceChange24h : ℚ
  priceChangePercentage24h : ℚ
  volume24h : Option ℚ
  marketCap : Option ℚ
deriving DecidableEq, Repr

/-- A news item as produced by the news adapter (`transformNewsItem`).
`publishedAt` is the timestamp in milliseconds; `description` and `url`
may be absent (`null`/empty in the source). -/
structure NewsItem where
  id : String
  title : String
  description : Option String
  publishedAt : Int
  source : String
  url : Option String
  currencies : List String
  votes : Votes
deriving DecidableEq, Repr

/-- A news item after `formatNewsItem` (correlation output shape). -/
structure FormattedNews where
  title : String
  description : String
  source : String
  url : String
  publishedAt : Int
  votes : Votes
deriving DecidableEq, Repr

/-- A correlation record, the per-coin output of the correlation engine. -/
structure Correlation where
  coin : String
  symbol : String
  name : String
  currentPrice : ℚ
  priceChange24h : ℚ
  priceChangePercentage24h : ℚ
  direction : String
  volume24h : Option ℚ
  marketCap : Option ℚ
  relevantNews : List FormattedNews
  fallbackSignals : List String
  explanationBasis : String
deriving DecidableEq, Repr

/-- A JavaScript argument that is either an array of `α` or any non-array
value (`Array.isArray` fails on it). -/
inductive JsInput (α : Type) where
  | array (items : List α)
  | nonArray
deriving DecidableEq

/-! ## Correlation engine (`engine/correlate.js`) -/

/-- JavaScript source: `formatCurrency`. `none` models `null`/`undefined`. -/
def formatCurrency (amount : Option ℚ) : String :=
  match amount with
  | none => "$0"
  | some a =>
    if (1000000000 : ℚ) ≤ |a| then "$" ++ toFixed 1 (a / 1000000000) ++ "B"
    else if (1000000 : ℚ) ≤ |a| then "$" ++ toFixed 1 (a / 1000000) ++ "M"
    else if (1000 : ℚ) ≤ |a| then "$" ++ toFixed 1 (a / 1000) ++ "K"
    else "$" ++ toFixed 2 a

/-- JavaScript source: `formatPercentage`. -/
def formatPercentage (value : Option ℚ) : String :=
  match value with
  | none => "0.00%"
  | some v => (if 0 ≤ v then "+" else "") ++ toFixed 2 v ++ "%"

/-- JavaScript source: `determineDirection`. -/
def determineDirection (percentChange : ℚ) : String :=
  if 0 < percentChange then "up" else "down"

/-- JavaScript source: `determineExplanationBasis`. -/
def determineExplanationBasis (newsCount : Nat) : String :=
  if 2 ≤ newsCount then "news"
  else if newsCount = 1 then "both"
  else "signals"

/-- JavaScript source: `generateFallbackSignals` (three `signals.push`
calls become a three-element list literal). -/
def generateFallbackSignals (coin : MarketSnapshot) : List String :=
  let priceChangeFormatted := formatPercentage (some coin.priceChangePercentage24h)
  let direction := if 0 ≤ coin.priceChangePercentage24h then "increased" else "decreased"
  [ "Price " ++ direction ++ " by " ++ priceChangeFormatted ++ " in 24h"
  , "24h trading volume: " ++ formatCurrency coin.volume24h
  , "Market cap: " ++ formatCurrency coin.marketCap ]

/-- JavaScript source: `formatNewsItem`. -/
def formatNewsItem (news : NewsItem) : FormattedNews :=
  { title := news.title
  , description := news.description.getD ""
  , source := news.source
  , url := news.url.getD ""
  , publishedAt := news.publishedAt
  , votes := news.votes }

/-- One insertion step of the stable descending-by-`publishedAt` sort: the
new element goes in front of the first element whose timestamp is not
larger. (ECMAScript requires `Array.prototype.sort` to be stable; with
comparator `(a, b) => b.publishedAt - a.publishedAt` the array is stably
sorted descending, which insertion sort with this placement realises.) -/
def insertDesc (x : NewsItem) : List NewsItem → List NewsItem
  | [] => [x]
  | h :: t => if h.publishedAt ≤ x.publishedAt then x :: h :: t else h :: insertDesc x t

/-- Stable descending sort by `publishedAt`, modelling
`.sort((a, b) => new Date(b.publishedAt) - new Date(a.publishedAt))`. -/
def sortByPublishedDesc : List NewsItem → List NewsItem
  | [] => []
  | h :: t => insertDesc h (sortByPublishedDesc t)

/-- JavaScript source: `correlateCoin`. -/
def correlateCoin (coin : MarketSnapshot) (allNews : List NewsItem) : Correlation :=
  let relevantNews :=
    ((sortByPublishedDesc (allNews.filter (fun news => news.currencies.contains coin.symbol))).take 5).map
      formatNewsItem
  let fallbackSignals := generateFallbackSignals coin
  let explanationBasis := determineExplanationBasis relevantNews.length
  { coin := coin.id
  , symbol := coin.symbol
  , name := coin.name
  , currentPrice := coin.currentPrice
  , priceChange24h := coin.priceChange24h
  , priceChangePercentage24h := coin.priceChangePercentage24h
  , direction := determineDirection coin.priceChangePercentage24h
  , volume24h := coin.volume24h
  , marketCap := coin.marketCap
  , relevantNews := relevantNews
  , fallbackSignals := fallbackSignals
  , explanationBasis := explanationBasis }

/-- JavaScript source: `correlateData` (default export of
`engine/correlate.js`); a non-array argument makes it throw. -/
def correlateData (marketData : JsInput MarketSnapshot) (newsData : JsInput NewsItem) :
    Except String (List Correlation) :=
  match marketData, newsData with
  | .array m, .array n => .ok (m.map (fun coin => correlateCoin coin n))
  | _, _ => .error "marketData and newsData must be arrays"

/-! ## Prompt builder (`engine/prompts.js`) -/

/-- Pairs each list element with its zero-based position, starting at `k`. -/
def enumFromNat (k : Nat) : List α → List (Nat × α)
  | [] => []
  | h :: t => (k, h) :: enumFromNat (k + 1) t

/-- Lower-case hexadecimal digit for `n < 16`. -/
def hexDigit (n : Nat) : Char :=
  if n < 10 then Char.ofNat (48 + n) else Char.ofNat (87 + n)

/-- JSON string escaping of one character, as performed by
`JSON.stringify` (quote, backslash, and control characters). -/
def jsonEscapeChar (c : Char) : String :=
  if c = '"' then "\\\""
  else if c = '\\' then "\\\\"
  else if c = '\n' then "\\n"
  else if c = '\r' then "\\r"
  else if c = '\t' then "\\t"
  else if c.toNat = 8 then "\\b"
  else if c.toNat = 12 then "\\f"
  else if c.toNat < 32 then "\\u00" ++ String.mk [hexDigit (c.toNat / 16), hexDigit (c.toNat % 16)]
  else String.mk [c]

/-- A JSON string literal with surrounding quotes. -/
def jsonQuote (s : String) : String :=
  "\"" ++ String.join (s.data.map jsonEscapeChar) ++ "\""

/-- JSON values produced by `buildJsonSchema` (only the shapes the source
builds: strings, arrays and objects). -/
inductive Json where
  | str (s : String)
  | arr (elems : List Json)
  | obj (members : List (String × Json))

mutual

/-- Model of `JSON.stringify(v, null, 2)`: `indent` is the indentation of
the current nesting level, each level adds two spaces. -/
def Json.stringifyWith (indent : String) : Json → String
  | .str s => jsonQuote s
  | .arr [] => "[]"
  | .arr (x :: xs) =>
    "[\n" ++ indent ++ "  " ++
      String.intercalate (",\n" ++ indent ++ "  ") (Json.stringifyItems (indent ++ "  ") (x :: xs)) ++
      "\n" ++ indent ++ "]"
  | .obj [] => "\x7b\x7d"
  | .obj (m :: ms) =>
    "\x7b\n" ++ indent ++ "  " ++
      String.intercalate (",\n" ++ indent ++ "  ") (Json.stringifyMembers (indent ++ "  ") (m :: ms)) ++
      "\n" ++ indent ++ "\x7d"

/-- Serialises each array element at the given indentation. -/
def Json.stringifyItems (indent : String) : List Json → List String
  | [] => []
  | x :: xs => Json.stringifyWith indent x :: Json.stringifyItems indent xs

/-- Serialises each `"key": value` member at the given indentation. -/
def Json.stringifyMembers (indent : String) : List (String × Json) → List String
  | [] => []
  | (k, v) :: ms => (jsonQuote k ++ ": " ++ Json.stringifyWith indent v) :: Json.stringifyMembers indent ms

end

/-- JavaScript source: `buildJsonSchema`. -/
def buildJsonSchema (correlations : List Correlation) : String :=
  let exampleEntries := (correlations.take 1).map (fun c =>
    Json.obj [("coin", .str c.coin), ("symbol", .str c.symbol),
              ("summary", .str "Brief 3-4 sentence explanation based on provided data")])
  Json.stringifyWith ""
    (Json.obj [("summaries",
      Json.arr (exampleEntries ++ [Json.obj [("...", .str "summaries for remaining coins")]]))])

/-- JavaScript source: `buildSystemInstructions`. -/
def buildSystemInstructions : String :=
  "You are a crypto market analyst explaining price movements to newsletter subscribers.\n\nCRITICAL RULES:\n- Analyze ALL coins provided below\n- ONLY use the data provided for each coin\n- If data is insufficient for a coin, state \"Insufficient data to explain this movement\"\n- NEVER speculate about future price movements\n- NEVER give financial advice (buy/sell/hold recommendations)\n- NEVER predict what will happen next\n- Be concise: 3-4 sentences per coin maximum\n- Focus on facts: cite news sources when available\n- Return properly formatted JSON as specified"

/-- Header part of `formatCoinSection`: the initial template literal
(separator line, coin line, price-movement line, current-price line). -/
def coinSectionHeader (c : Correlation) : String :=
  let direction := if c.direction = "up" then "increased" else "decreased"
  let sign := if 0 ≤ c.priceChangePercentage24h then "+" else ""
  "---\nCoin: " ++ c.name ++ " (" ++ c.symbol ++ ")\nPrice Movement: " ++ direction ++
    " by " ++ sign ++ toFixed 2 c.priceChangePercentage24h ++ "%\nCurrent Price: $" ++
    toLocaleString c.currentPrice ++ "\n"

/-- One numbered news entry appended by the `forEach` in
`formatCoinSection` (description line only when non-empty). -/
def newsEntryLines (p : Nat × FormattedNews) : String :=
  toString (p.1 + 1) ++ ". [" ++ p.2.source ++ "] " ++ p.2.title ++ "\n" ++
    (if p.2.description ≠ "" then "   " ++ p.2.description ++ "\n" else "")

/-- News block of `formatCoinSection`, appended when `relevantNews` is
non-empty. -/
def coinSectionNewsBlock (c : Correlation) : String :=
  if 0 < c.relevantNews.length then
    "\nRecent News:\n" ++ String.join ((enumFromNat 0 c.relevantNews).map newsEntryLines)
  else ""

/-- Market-indicators block of `formatCoinSection` (one `- signal` bullet
line per fallback signal). -/
def marketIndicatorsBlock (signals : List String) : String :=
  "\nMarket Indicators:\n" ++ String.join (signals.map (fun signal => "- " ++ signal ++ "\n"))

/-- JavaScript source: `formatCoinSection` (the successive `section +=`
updates become one concatenation). -/
def formatCoinSection (c : Correlation) : String :=
  coinSectionHeader c ++ coinSectionNewsBlock c ++
    (if c.explanationBasis = "signals" ∨ c.explanationBasis = "both" then
      marketIndicatorsBlock c.fallbackSignals
    else "") ++ "\n"

/-- JavaScript source: `buildBatchPrompt`; throws on a non-array or empty
argument. -/
def buildBatchPrompt (correlations : JsInput Correlation) : Except String String :=
  match correlations with
  | .nonArray => .error "correlations must be a non-empty array"
  | .array [] => .error "correlations must be a non-empty array"
  | .array (c :: cs) =>
    let systemInstructions := buildSystemInstructions
    let coinSections := String.intercalate "\n" ((c :: cs).map formatCoinSection)
    let jsonSchema := buildJsonSchema (c :: cs)
    .ok (systemInstructions ++
      "\n\nExplain the price movements for the following cryptocurrencies in the last 24 hours.\n\n" ++
      coinSections ++
      "\n\nReturn your analysis as a JSON object with a \"summaries\" array matching this structure:\n" ++
      jsonSchema ++
      "\n\nRemember: Only use the data provided. If data is insufficient for any coin, state \"Insufficient data to explain this movement\" in the summary.")

/-! ## Resilient fetch wrapper (`adapters/cryptopanic.js` `fetchWithRetry`;
`adapters/coingecko.js` has the identical loop) -/

/-- An error thrown by one fetch attempt: an HTTP response with a status
code, or a failure with no response attached (network error, timeout). -/
inductive FetchError where
  | http (status : Nat)
  | network
deriving DecidableEq, Repr

/-- The non-retryable test from the source:
`error.response && error.response.status >= 400 && error.response.status < 500`. -/
def FetchError.isClientError : FetchError → Bool
  | .http status => decide (400 ≤ status ∧ status < 500)
  | .network => false

/-- Observable outcome of the retry loop: the propagated result, how many
attempts ran, and the backoff delays slept (in order). -/
structure RetryOutcome (α : Type) where
  result : Except FetchError α
  attempts : Nat
  delays : List Nat
deriving Repr

/-- Body of the `for (let attempt = 0; attempt <= maxRetries; attempt++)`
loop of `fetchWithRetry`: `op` gives each attempt's outcome, the fuel is
`maxRetries - attempt` (so `attempt < maxRetries` iff the fuel is
positive). A sleep of `baseDelay * 2 ^ attempt` ms is recorded before
each retry. With no fuel left an error is propagated whether or not it
is a client error: in the source the client-error `throw` and the
post-loop `throw lastError` coincide on the final iteration. -/
def retryGo (op : Nat → Except FetchError α) (baseDelay : Nat) (attempt : Nat) :
    Nat → RetryOutcome α
  | 0 =>
    match op attempt with
    | .ok v => ⟨.ok v, 1, []⟩
    | .error e => ⟨.error e, 1, []⟩
  | r + 1 =>
    match op attempt with
    | .ok v => ⟨.ok v, 1, []⟩
    | .error e =>
      if e.isClientError then ⟨.error e, 1, []⟩
      else
        let rest := retryGo op baseDelay (attempt + 1) r
        ⟨rest.result, rest.attempts + 1, baseDelay * 2 ^ attempt :: rest.delays⟩

/-- JavaScript source: `fetchWithRetry` (the attempts are abstracted as
`op : Nat → Except FetchError α`, the outcome of `performFetch` on each
zero-indexed attempt). -/
def fetchWithRetry (op : Nat → Except FetchError α) (maxRetries baseDelay : Nat) :
    RetryOutcome α :=
  retryGo op baseDelay 0 maxRetries

/-! ## TTL cache (`utils/cache.js`) -/

/-- A parsed cache file: creation timestamp, TTL in milliseconds, payload. -/
structure CacheEntry (α : Type) where
  timestamp : Int
  ttl : Int
  data : α

/-- The cache directory contents: a map from file name to parsed entry
(JSON serialisation of the entry round-trips and is left implicit). -/
def CacheState (α : Type) : Type := String → Option (CacheEntry α)

/-- A cache directory with no files. -/
def emptyCache {α : Type} : CacheState α := fun _ => none

/-- JavaScript source: `getCacheFilePath`; characters outside
`[a-zA-Z0-9,-]` are replaced by `_` (the constant directory prefix is
dropped from the model). -/
def getCacheFilePath (key : String) : String :=
  String.mk (key.data.map (fun c => if c.isAlphanum ∨ c = ',' ∨ c = '-' then c else '_')) ++
    ".json"

/-- JavaScript source: `getCached`, with the clock (`Date.now()`) passed
explicitly; returns the read result and the cache state after the call
(an expired entry is unlinked). -/
def getCached (cacheEnabled : Bool) (fs : CacheState α) (key : String) (now : Int) :
    Option α × CacheState α :=
  if cacheEnabled then
    match fs (getCacheFilePath key) with
    | none => (none, fs)
    | some cached =>
      if cached.timestamp + cached.ttl < now then
        (none, fun p => if p = getCacheFilePath key then none else fs p)
      else
        (some cached.data, fs)
  else
    (none, fs)

/-- TTL resolution in `setCached`:
`(ttlMinutes || parseInt(process.env.CACHE_TTL_MINUTES || DEFAULT_TTL_MINUTES, 10)) * 60 * 1000`
(note `ttlMinutes = 0` is falsy and falls back to the environment value). -/
def resolveTtlMs (ttlMinutes : Option Nat) (envTtlMinutes : Nat) : Int :=
  ((match ttlMinutes with
    | some m => if m = 0 then envTtlMinutes else m
    | none => envTtlMinutes) * 60 * 1000 : Nat)

/-- JavaScript source: `setCached`, with the clock passed explicitly;
writes the entry file, overwriting any previous file of the same name. -/
def setCached (cacheEnabled : Bool) (fs : CacheState α) (key : String) (data : α)
    (ttlMinutes : Option Nat) (envTtlMinutes : Nat) (now : Int) : CacheState α :=
  if cacheEnabled then
    fun p =>
      if p = getCacheFilePath key then
        some ⟨now, resolveTtlMs ttlMinutes envTtlMinutes, data⟩
      else fs p
  else
    fs

/-! ## Spec-side definitions (used to state refinement claims) -/

/-- Spec-side insertion for the stable-sort characterisation: items are
decorated with their input position; the new element goes in front of the
first element it strictly precedes in the order "timestamp descending,
ties broken by smaller input position". -/
def insertByRank (x : Nat × NewsItem) : List (Nat × NewsItem) → List (Nat × NewsItem)
  | [] => [x]
  | h :: t =>
    if h.2.publishedAt < x.2.publishedAt ∨ (h.2.publishedAt = x.2.publishedAt ∧ x.1 < h.1)
    then x :: h :: t
    else h :: insertByRank x t

/-- Spec-side sort of decorated items by the strict total order
"timestamp descending, then input position ascending". -/
def rankSortDesc : List (Nat × NewsItem) → List (Nat × NewsItem)
  | [] => []
  | h :: t => insertByRank h (rankSortDesc t)

/-- Modelled from the spec's words: "Sort selected items by published
timestamp descending (most recent first); ties broken by input order
(stable sort required)" — decorate each item with its input position,
sort by the (duplicate-free) key (timestamp descending, position
ascending), and strip the positions. -/
def newsSortSpec (l : List NewsItem) : List NewsItem :=
  (rankSortDesc (enumFromNat 0 l)).map Prod.snd

/-- Modelled from the claim's words (not the source): the abbreviation
thresholds compare the signed amount itself ("when the amount is at least
1e9", and so on), with everything else as in `formatCurrency`. -/
def formatCurrencyClaimed (amount : Option ℚ) : String :=
  match amount with
  | none => "$0"
  | some a =>
    if (1000000000 : ℚ) ≤ a then "$" ++ toFixed 1 (a / 1000000000) ++ "B"
    else if (1000000 : ℚ) ≤ a then "$" ++ toFixed 1 (a / 1000000) ++ "M"
    else if (1000 : ℚ) ≤ a then "$" ++ toFixed 1 (a / 1000) ++ "K"
    else "$" ++ toFixed 2 a

/-- Modelled from the amended claim's words: the abbreviation thresholds
compare the absolute value of the amount, the scaled value keeping its
sign. -/
def formatCurrencyAmended (amount : Option ℚ) : String :=
  match amount with
  | none => "$0"
  | some a =>
    if (1000000000 : ℚ) ≤ |a| then "$" ++ toFixed 1 (a / 1000000000) ++ "B"
    else if (1000000 : ℚ) ≤ |a| then "$" ++ toFixed 1 (a / 1000000) ++ "M"
    else if (1000 : ℚ) ≤ |a| then "$" ++ toFixed 1 (a / 1000) ++ "K"
    else "$" ++ toFixed 2 a

/-! ## Concrete fixtures used by witnesses -/

/-- A concrete market snapshot (strictly positive 24h change). -/
def wCoin : MarketSnapshot :=
  { id := "bitcoin", symbol := "BTC", name := "Bitcoin", currentPrice := 50000
  , priceChange24h := 1200, priceChangePercentage24h := 249/100
  , volume24h := some 28000000000, marketCap := some 850000000000 }

/-- A concrete market snapshot whose 24h change is exactly zero. -/
def wCoinZero : MarketSnapshot :=
  { id := "ethereum", symbol := "ETH", name := "Ethereum", currentPrice := 3000
  , priceChange24h := 0, priceChangePercentage24h := 0
  , volume24h := some 12000000000, marketCap := some 400000000000 }

/-- Ten concrete news items, all matching `"BTC"`, with staggered distinct
timestamps `10, 20, …, 100` (input order oldest first). -/
def wNews : List NewsItem :=
  (List.range 10).map (fun n =>
    { id := toString n, title := "News " ++ toString n, description := none
    , publishedAt := (10 : Int) * ((n : Int) + 1), source := "Src", url := none
    , currencies := ["BTC"], votes := ⟨0, 0, 0⟩ })

/-- Attempt oracle that fails every attempt with HTTP 500. -/
def wOpAll500 : Nat → Except FetchError Nat := fun _ => .error (.http 500)

/-- Attempt oracle that fails attempts 0 and 1 with a network error and
succeeds on attempt 2. -/
def wOpThirdOk : Nat → Except FetchError Nat :=
  fun i => if i = 2 then .ok 7 else .error .network

/-- Attempt oracle that fails every attempt with HTTP 404. -/
def wOp404 : Nat → Except FetchError Nat := fun _ => .error (.http 404)

/-! ## Helper lemmas about the stable sort -/

theorem insertDesc_length (x : NewsItem) (l : List NewsItem) :
    (insertDesc x l).length = l.length + 1 := by
  induction l with
  | nil => rfl
  | cons h t ih =>
    simp only [insertDesc]
    split
    · simp
    · simp [ih]

theorem sortByPublishedDesc_length (l : List NewsItem) :
    (sortByPublishedDesc l).length = l.length := by
  induction l with
  | nil => rfl
  | cons h t ih => simp [sortByPublishedDesc, insertDesc_length, ih]

theorem mem_insertDesc {y x : NewsItem} {l : List NewsItem} :
    y ∈ insertDesc x l ↔ y = x ∨ y ∈ l := by
  induction l with
  | nil => simp [insertDesc]
  | cons h t ih =>
    simp only [insertDesc]
    split
    · simp [or_comm, or_assoc]
    · simp [ih]
      tauto

theorem mem_sortByPublishedDesc {y : NewsItem} {l : List NewsItem} :
    y ∈ sortByPublishedDesc l ↔ y ∈ l := by
  induction l with
  | nil => simp [sortByPublishedDesc]
  | cons h t ih => simp [sortByPublishedDesc, mem_insertDesc, ih]

theorem insertDesc_pairwise (x : NewsItem) (l : List NewsItem)
    (h : l.Pairwise (fun a b => b.publishedAt ≤ a.publishedAt)) :
    (insertDesc x l).Pairwise (fun a b => b.publishedAt ≤ a.publishedAt) := by
  induction l with
  | nil => simp [insertDesc]
  | cons hd t ih =>
    obtain ⟨hhd, ht⟩ := List.pairwise_cons.mp h
    simp only [insertDesc]
    split
    next hcond =>
      refine List.pairwise_cons.mpr ⟨?_, h⟩
      intro b hb
      rcases List.mem_cons.mp hb with rfl | hb
      · exact hcond
      · exact le_trans (hhd b hb) hcond
    next hcond =>
      refine List.pairwise_cons.mpr ⟨?_, ih ht⟩
      intro b hb
      rcases mem_insertDesc.mp hb with rfl | hb
      · exact le_of_lt (lt_of_not_le hcond)
      · exact hhd b hb

theorem sortByPublishedDesc_pairwise (l : List NewsItem) :
    (sortByPublishedDesc l).Pairwise (fun a b => b.publishedAt ≤ a.publishedAt) := by
  induction l with
  | nil => simp [sortByPublishedDesc]
  | cons h t ih => exact insertDesc_pairwise h _ ih

theorem mem_insertByRank {q p : Nat × NewsItem} {dl : List (Nat × NewsItem)} :
    p ∈ insertByRank q dl ↔ p = q ∨ p ∈ dl := by
  induction dl with
  | nil => simp [insertByRank]
  | cons d ds ih =>
    simp only [insertByRank]
    split
    · simp [or_comm, or_assoc]
    · simp [ih]
      tauto

theorem mem_rankSortDesc {p : Nat × NewsItem} {dl : List (Nat × NewsItem)} :
    p ∈ rankSortDesc dl ↔ p ∈ dl := by
  induction dl with
  | nil => simp [rankSortDesc]
  | cons d ds ih => simp [rankSortDesc, mem_insertByRank, ih]

theorem enumFromNat_le_fst (k : Nat) (l : List α) :
    ∀ p ∈ enumFromNat k l, k ≤ p.1 := by
  induction l generalizing k with
  | nil => simp [enumFromNat]
  | cons h t ih =>
    intro p hp
    rcases List.mem_cons.mp hp with rfl | hp
    · exact le_rfl
    · exact le_trans (Nat.le_succ k) (ih (k + 1) p hp)

theorem map_snd_insertByRank (k : Nat) (x : NewsItem) (dl : List (Nat × NewsItem))
    (hk : ∀ p ∈ dl, k < p.1) :
    (insertByRank (k, x) dl).map Prod.snd = insertDesc x (dl.map Prod.snd) := by
  induction dl with
  | nil => rfl
  | cons d ds ih =>
    have hkd : k < d.1 := hk d (List.mem_cons_self d ds)
    simp only [insertByRank, List.map_cons, insertDesc]
    by_cases hle : d.2.publishedAt ≤ x.publishedAt
    · have hcond : d.2.publishedAt < x.publishedAt ∨
          (d.2.publishedAt = x.publishedAt ∧ k < d.1) := by
        rcases lt_or_eq_of_le hle with h | h
        · exact Or.inl h
        · exact Or.inr ⟨h, hkd⟩
      rw [if_pos hcond, if_pos hle]
      simp
    · have hcond : ¬(d.2.publishedAt < x.publishedAt ∨
          (d.2.publishedAt = x.publishedAt ∧ k < d.1)) := by
        rintro (h | ⟨h, _⟩)
        · exact hle (le_of_lt h)
        · exact hle (le_of_eq h)
      rw [if_neg hcond, if_neg hle]
      simp only [List.map_cons, List.cons.injEq, true_and]
      exact ih (fun p hp => hk p (List.mem_cons_of_mem d hp))

theorem map_snd_rankSortDesc (l : List NewsItem) :
    ∀ k : Nat, (rankSortDesc (enumFromNat k l)).map Prod.snd = sortByPublishedDesc l := by
  induction l with
  | nil => intro k; rfl
  | cons h t ih =>
    intro k
    simp only [enumFromNat, rankSortDesc, sortByPublishedDesc]
    rw [map_snd_insertByRank k h _ ?side, ih (k + 1)]
    case side =>
      intro p hp
      have hmem : p ∈ enumFromNat (k + 1) t := mem_rankSortDesc.mp hp
      have := enumFromNat_le_fst (k + 1) t p hmem
      omega

theorem newsSortSpec_eq_sortByPublishedDesc (l : List NewsItem) :
    newsSortSpec l = sortByPublishedDesc l :=
  map_snd_rankSortDesc l 0

/-- C1: for every market snapshot and news list, the `explanationBasis`
of the resulting record is determined by the number of news items whose
currency list contains the snapshot's symbol, counted before truncation
to 5: `"news"` for a count of 2 or more, `"both"` for exactly 1,
`"signals"` for 0 (so the `.take 5` truncation never changes the
classification). -/
theorem explanationBasis_matches_pretruncation_count
    (coin : MarketSnapshot) (news : List NewsItem) :
    (correlateCoin coin news).explanationBasis =
      (if 2 ≤ (news.filter (fun item => item.currencies.contains coin.symbol)).length then
        "news"
      else if (news.filter (fun item => item.currencies.contains coin.symbol)).length = 1 then
        "both"
      else "signals") := by
  have h1 : (correlateCoin coin news).explanationBasis =
      determineExplanationBasis
        (min 5 (news.filter (fun item => item.currencies.contains coin.symbol)).length) := by
    simp [correlateCoin, List.length_take, sortByPublishedDesc_length]
  rw [h1]
  generalize (news.filter (fun item => item.currencies.contains coin.symbol)).length = n
  unfold determineExplanationBasis
  rcases n with _ | _ | m
  · norm_num
  · norm_num
  · have h2 : 2 ≤ min 5 (m + 2) := le_min (by omega) (by omega)
    rw [if_pos h2, if_pos (by omega)]

/-- C2: the `direction` field of a correlation record is `"up"` exactly
when the 24h percentage change is strictly positive, and `"down"`
exactly when it is zero or negative. -/
theorem direction_strict_positive_boundary
    (coin : MarketSnapshot) (news : List NewsItem) :
    ((correlateCoin coin news).direction = "up" ↔ 0 < coin.priceChangePercentage24h) ∧
    ((correlateCoin coin news).direction = "down" ↔ coin.priceChangePercentage24h ≤ 0) := by
  have h : (correlateCoin coin news).direction =
      determineDirection coin.priceChangePercentage24h := by
    simp [correlateCoin]
  rw [h]
  unfold determineDirection
  split
  next hpos =>
    exact ⟨iff_of_true rfl hpos, iff_of_false (by decide) (by linarith)⟩
  next hneg =>
    exact ⟨iff_of_false (by decide) hneg, iff_of_true rfl (le_of_not_lt hneg)⟩

/-- C8 counterexample: at amount `-1.5e9` the code abbreviates using the
absolute value (`"$-1.5B"`), while the claim's signed thresholds would
fall through to the two-decimal branch (`"$-1500000000.00"`); the claim
as stated is therefore false at this input. -/
theorem formatCurrency_signed_threshold_counterexample :
    formatCurrency (some (-1500000000)) = "$-1.5B" ∧
    formatCurrencyClaimed (some (-1500000000)) = "$-1500000000.00" ∧
    formatCurrency (some (-1500000000)) ≠ formatCurrencyClaimed (some (-1500000000)) := by
  refine ⟨by decide, by decide, by decide⟩

/-- C8 (amended): the currency formatter abbreviates by comparing the
absolute value of the amount against the 1e9/1e6/1e3 thresholds (the
scaled value keeps its sign), renders two decimals otherwise, formats
`null`/`undefined` as `"$0"`, and in particular maps 28e9 to `"$28.0B"`
and 850e9 to `"$850.0B"`. -/
theorem formatCurrency_abs_threshold_amended :
    (∀ amount : Option ℚ, formatCurrency amount = formatCurrencyAmended amount) ∧
    formatCurrency (some 28000000000) = "$28.0B" ∧
    formatCurrency (some 850000000000) = "$850.0B" ∧
    formatCurrency none = "$0" := by
    exact ⟨fun amount => rfl, by decide, by decide, by decide⟩

/-! ## Helper lemmas about the fallback-signal strings -/

theorem price_increased_factored (f : String) :
    "Price " ++ "increased" ++ " by " ++ f ++ " in 24h" =
      "Price increased by " ++ (f ++ " in 24h") := by
  rw [show (("Price " ++ "increased") ++ " by " : String) = "Price increased by " from rfl,
    String.append_assoc]

theorem price_decreased_factored (f : String) :
    "Price " ++ "decreased" ++ " by " ++ f ++ " in 24h" =
      "Price decreased by " ++ (f ++ " in 24h") := by
  rw [show (("Price " ++ "decreased") ++ " by " : String) = "Price decreased by " from rfl,
    String.append_assoc]

theorem price_prefix_clash (s t : String) :
    "Price decreased by " ++ s ≠ "Price increased by " ++ t := by
  intro h
  have hd : ("Price decreased by " ++ s).data = ("Price increased by " ++ t).data :=
    congrArg String.data h
  rw [String.data_append, String.data_append] at hd
  have hlen : ("Price decreased by " : String).data.length =
      ("Price increased by " : String).data.length := by decide
  obtain ⟨h1, _⟩ := List.append_inj hd hlen
  exact absurd h1 (by decide)

/-- C10: at a 24h percentage change of exactly zero the record's
`direction` is `"down"` while its first fallback signal reads
`"Price increased by +0.00% in 24h"` (the signal word comes from a
`>= 0` test, `direction` from a `> 0` test); for every non-zero change
the two indications agree (`direction = "up"` exactly when the first
signal starts with `"Price increased by "`). -/
theorem direction_vs_fallback_signal_at_zero
    (coin : MarketSnapshot) (news : List NewsItem) :
    (coin.priceChangePercentage24h = 0 →
      (correlateCoin coin news).direction = "down" ∧
      (correlateCoin coin news).fallbackSignals.head? =
        some "Price increased by +0.00% in 24h") ∧
    (coin.priceChangePercentage24h ≠ 0 →
      ((correlateCoin coin news).direction = "up" ↔
        ∃ rest : String,
          (correlateCoin coin news).fallbackSignals.head? =
            some ("Price increased by " ++ rest))) := by
  have hdir : (correlateCoin coin news).direction =
      determineDirection coin.priceChangePercentage24h := by
    simp [correlateCoin]
  have hsig : (correlateCoin coin news).fallbackSignals = generateFallbackSignals coin := by
    simp [correlateCoin]
  constructor
  · intro h0
    constructor
    · rw [hdir, h0]; decide
    · rw [hsig]
      unfold generateFallbackSignals
      rw [h0]
      simp only [List.head?_cons]
      decide
  · intro hne
    rw [hdir, hsig]
    unfold determineDirection generateFallbackSignals
    simp only [List.head?_cons]
    by_cases hpos : 0 < coin.priceChangePercentage24h
    · rw [if_pos hpos, if_pos (le_of_lt hpos)]
      refine iff_of_true rfl ⟨formatPercentage (some coin.priceChangePercentage24h) ++ " in 24h", ?_⟩
      rw [price_increased_factored]
    · have hneg : coin.priceChangePercentage24h < 0 :=
        lt_of_le_of_ne (le_of_not_lt hpos) hne
      rw [if_neg hpos, if_neg (not_le.mpr hneg)]
      refine iff_of_false (by decide) ?_
      rintro ⟨rest, hr⟩
      rw [price_decreased_factored] at hr
      exact price_prefix_clash _ _ (Option.some.injEq _ _ ▸ hr)

/-- C10 witness: at the concrete zero-change snapshot the record's
direction is `"down"` while the first fallback signal says "increased". -/
theorem direction_vs_fallback_signal_at_zero_witness :
    (correlateCoin wCoinZero []).direction = "down" ∧
    (correlateCoin wCoinZero []).fallbackSignals.head? =
      some "Price increased by +0.00% in 24h" :=
  (direction_vs_fallback_signal_at_zero wCoinZero []).1 rfl


/-! ## Helper lemmas about the retry loop -/

theorem delays_cons (D attempt r : Nat) :
    D * 2 ^ attempt :: (List.range r).map (fun i => D * 2 ^ (attempt + 1 + i)) =
      (List.range (r + 1)).map (fun i => D * 2 ^ (attempt + i)) := by
  rw [List.range_succ_eq_map, List.map_cons, List.map_map]
  refine congrArg₂ List.cons (by norm_num) ?_
  apply List.map_congr_left
  intro a _
  simp only [Function.comp_apply, Nat.succ_eq_add_one]
  have h2 : attempt + 1 + a = attempt + (a + 1) := by omega
  rw [h2]

theorem retryGo_all_transient_fail {α : Type} (op : Nat → Except FetchError α) (D : Nat)
    (hcl : ∀ i e, op i = .error e → e.isClientError = false) :
    ∀ (remaining attempt : Nat),
      (∀ i, i ≤ attempt + remaining → ∃ e, op i = .error e) →
      ∃ e, op (attempt + remaining) = .error e ∧
        retryGo op D attempt remaining =
          ⟨.error e, remaining + 1, (List.range remaining).map (fun i => D * 2 ^ (attempt + i))⟩ := by
  intro remaining
  induction remaining with
  | zero =>
    intro attempt hfail
    obtain ⟨e, he⟩ := hfail attempt (by omega)
    refine ⟨e, by simpa using he, ?_⟩
    simp [retryGo, he]
  | succ r ih =>
    intro attempt hfail
    obtain ⟨e0, he0⟩ := hfail attempt (by omega)
    obtain ⟨e, he, hrec⟩ := ih (attempt + 1) (fun i hi => hfail i (by omega))
    refine ⟨e, ?_, ?_⟩
    · rw [show attempt + (r + 1) = attempt + 1 + r from by omega]
      exact he
    · simp only [retryGo, he0, hcl attempt e0 he0, Bool.false_eq_true, if_false]
      rw [hrec]
      exact congrArg (RetryOutcome.mk (Except.error e) (r + 1 + 1)) (delays_cons D attempt r)

theorem retryGo_success {α : Type} (op : Nat → Except FetchError α) (D : Nat) :
    ∀ (remaining attempt k : Nat) (v : α),
      attempt ≤ k → k ≤ attempt + remaining → op k = .ok v →
      (∀ i, attempt ≤ i → i < k → ∃ e, op i = .error e ∧ e.isClientError = false) →
      retryGo op D attempt remaining =
        ⟨.ok v, k - attempt + 1, (List.range (k - attempt)).map (fun i => D * 2 ^ (attempt + i))⟩ := by
  intro remaining
  induction remaining with
  | zero =>
    intro attempt k v h1 h2 hok _
    have hk : k = attempt := by omega
    subst hk
    simp [retryGo, hok]
  | succ r ih =>
    intro attempt k v h1 h2 hok hfail
    rcases Nat.eq_or_lt_of_le h1 with heq | hlt
    · subst heq
      simp [retryGo, hok]
    · obtain ⟨e0, he0, hc0⟩ := hfail attempt le_rfl hlt
      simp only [retryGo, he0, hc0, Bool.false_eq_true, if_false]
      rw [ih (attempt + 1) k v (by omega) (by omega) hok
        (fun i hi1 hi2 => hfail i (by omega) hi2)]
      have hka : k - attempt = (k - (attempt + 1)) + 1 := by omega
      rw [hka]
      exact congrArg (RetryOutcome.mk (Except.ok v) (k - (attempt + 1) + 1 + 1))
        (delays_cons D attempt (k - (attempt + 1)))

theorem retryGo_client_stop {α : Type} (op : Nat → Except FetchError α) (D : Nat) :
    ∀ (remaining attempt k : Nat) (e : FetchError),
      attempt ≤ k → k ≤ attempt + remaining → op k = .error e → e.isClientError = true →
      (∀ i, attempt ≤ i → i < k → ∃ e2, op i = .error e2 ∧ e2.isClientError = false) →
      retryGo op D attempt remaining =
        ⟨.error e, k - attempt + 1, (List.range (k - attempt)).map (fun i => D * 2 ^ (attempt + i))⟩ := by
  intro remaining
  induction remaining with
  | zero =>
    intro attempt k e h1 h2 herr hcl _
    have hk : k = attempt := by omega
    subst hk
    simp [retryGo, herr]
  | succ r ih =>
    intro attempt k e h1 h2 herr hcl hfail
    rcases Nat.eq_or_lt_of_le h1 with heq | hlt
    · subst heq
      simp [retryGo, herr, hcl]
    · obtain ⟨e0, he0, hc0⟩ := hfail attempt le_rfl hlt
      simp only [retryGo, he0, hc0, Bool.false_eq_true, if_false]
      rw [ih (attempt + 1) k e (by omega) (by omega) herr hcl
        (fun i hi1 hi2 => hfail i (by omega) hi2)]
      have hka : k - attempt = (k - (attempt + 1)) + 1 := by omega
      rw [hka]
      exact congrArg (RetryOutcome.mk (Except.error e) (k - (attempt + 1) + 1 + 1))
        (delays_cons D attempt (k - (attempt + 1)))

/-- C3: if every attempt fails with a transient (non-4xx) error, the
wrapper makes exactly `R + 1` attempts, sleeps `D * 2 ^ attempt` ms
before each retry (zero-indexed, so delays `D, 2D, 4D, …`), and finally
propagates the last attempt's error unchanged; if some attempt `k ≤ R`
succeeds after transient failures, its result is returned (after the
`k` backoff sleeps). -/
theorem fetchWithRetry_transient_retry_policy {α : Type} (op : Nat → Except FetchError α)
    (R D : Nat) (htransient : ∀ i e, op i = .error e → e.isClientError = false) :
    ((∀ i, i ≤ R → ∃ e, op i = .error e) →
      ∃ e, op R = .error e ∧
        fetchWithRetry op R D =
          ⟨.error e, R + 1, (List.range R).map (fun i => D * 2 ^ i)⟩) ∧
    (∀ k v, k ≤ R → op k = .ok v → (∀ i, i < k → ∃ e, op i = .error e) →
      fetchWithRetry op R D =
        ⟨.ok v, k + 1, (List.range k).map (fun i => D * 2 ^ i)⟩) := by
  constructor
  · intro hfail
    obtain ⟨e, he, heq⟩ := retryGo_all_transient_fail op D htransient R 0
      (fun i hi => hfail i (by omega))
    refine ⟨e, by simpa using he, ?_⟩
    unfold fetchWithRetry
    rw [heq]
    refine congrArg (RetryOutcome.mk (Except.error e) (R + 1)) ?_
    apply List.map_congr_left
    intro a _
    rw [Nat.zero_add]
  · intro k v hk hok hfail
    have heq := retryGo_success op D R 0 k v (Nat.zero_le k) (by omega) hok
      (fun i _ hi => by
        obtain ⟨e2, he2⟩ := hfail i hi
        exact ⟨e2, he2, htransient i e2 he2⟩)
    unfold fetchWithRetry
    rw [heq, Nat.sub_zero]
    refine congrArg (RetryOutcome.mk (Except.ok v) (k + 1)) ?_
    apply List.map_congr_left
    intro a _
    rw [Nat.zero_add]

/-- C3 witness: with every attempt failing as HTTP 500, `R = 3` and
`D = 1000` the wrapper runs 4 attempts with delays 1000, 2000, 4000 ms
and propagates the 500; with attempts 0 and 1 failing as network errors
and attempt 2 succeeding, the success is returned after 3 attempts and
delays 1000, 2000 ms. -/
theorem fetchWithRetry_transient_retry_policy_witness :
    fetchWithRetry wOpAll500 3 1000 = ⟨.error (.http 500), 4, [1000, 2000, 4000]⟩ ∧
    fetchWithRetry wOpThirdOk 3 1000 = ⟨.ok 7, 3, [1000, 2000]⟩ := by
  constructor
  · obtain ⟨e, he, heq⟩ :=
      (fetchWithRetry_transient_retry_policy wOpAll500 3 1000
        (fun i e h => by
          have h2 : FetchError.http 500 = e := by
            simp only [wOpAll500] at h
            injection h
          rw [← h2]
          rfl)).1
        (fun i _ => ⟨.http 500, rfl⟩)
    simp only [wOpAll500] at he
    have h3 : FetchError.http 500 = e := by injection he
    rw [heq, ← h3]
    refine congrArg (RetryOutcome.mk (Except.error (FetchError.http 500)) 4) ?_
    decide
  · have heq :=
      (fetchWithRetry_transient_retry_policy wOpThirdOk 3 1000
        (fun i e h => by
          simp only [wOpThirdOk] at h
          by_cases hi : i = 2
          · rw [if_pos hi] at h
            exact Except.noConfusion h
          · rw [if_neg hi] at h
            have h2 : FetchError.network = e := by injection h
            rw [← h2]
            rfl)).2
        2 7 (by omega) (by simp [wOpThirdOk])
        (fun i hi => ⟨.network, by simp only [wOpThirdOk]; rw [if_neg (by omega)]⟩)
    rw [heq]
    refine congrArg (RetryOutcome.mk (Except.ok 7) 3) ?_
    decide

/-- C4: a client-class (4xx) failure is propagated at once: if the first
attempt fails with a client error the wrapper stops after exactly one
attempt with no sleeps, and in general a client error at attempt
`k ≤ R` (after only transient failures) stops the wrapper with that
error after exactly `k + 1` attempts. -/
theorem fetchWithRetry_client_error_no_retry {α : Type} (op : Nat → Except FetchError α)
    (R D : Nat) :
    (∀ e, op 0 = .error e → e.isClientError = true →
      fetchWithRetry op R D = ⟨.error e, 1, []⟩) ∧
    (∀ k e, k ≤ R → op k = .error e → e.isClientError = true →
      (∀ i, i < k → ∃ e2, op i = .error e2 ∧ e2.isClientError = false) →
      fetchWithRetry op R D =
        ⟨.error e, k + 1, (List.range k).map (fun i => D * 2 ^ i)⟩) := by
  have hgen : ∀ k e, k ≤ R → op k = .error e → e.isClientError = true →
      (∀ i, i < k → ∃ e2, op i = .error e2 ∧ e2.isClientError = false) →
      fetchWithRetry op R D =
        ⟨.error e, k + 1, (List.range k).map (fun i => D * 2 ^ i)⟩ := by
    intro k e hk herr hcl hfail
    have heq := retryGo_client_stop op D R 0 k e (Nat.zero_le k) (by omega) herr hcl
      (fun i _ hi => hfail i hi)
    unfold fetchWithRetry
    rw [heq, Nat.sub_zero]
    refine congrArg (RetryOutcome.mk (Except.error e) (k + 1)) ?_
    apply List.map_congr_left
    intro a _
    rw [Nat.zero_add]
  refine ⟨?_, hgen⟩
  intro e herr hcl
  have h0 := hgen 0 e (Nat.zero_le R) herr hcl (fun i hi => absurd hi (by omega))
  simpa using h0

/-- C4 witness: a first-attempt HTTP 404 is propagated with exactly one
attempt and no backoff sleeps. -/
theorem fetchWithRetry_client_error_no_retry_witness :
    fetchWithRetry wOp404 3 1000 = ⟨.error (.http 404), 1, []⟩ :=
  (fetchWithRetry_client_error_no_retry wOp404 3 1000).1 (FetchError.http 404) rfl rfl

/-- C5 counterexample: cache keys are sanitized into file names
(`[^a-zA-Z0-9,-] ↦ _`), so the never-set key `"a?b"` reads the entry
stored for `"a!b"`: a get on a key that was never set can return a
payload, contradicting the claim that it always reports absent. -/
theorem getCached_sanitized_key_collision :
    (getCached true (setCached true (emptyCache : CacheState Nat) "a!b" 42 (some 5) 15 0)
        "a?b" 0).1 = some 42 ∧
    (getCached true (setCached true (emptyCache : CacheState Nat) "a!b" 42 (some 5) 15 0)
        "a?b" 0).1 ≠ none := by
  constructor
  · decide
  · decide

/-- C5 (amended): `set(k, v)` then `get(k)` at `t ≤ creation + ttl`
returns `v`; at `t > creation + ttl` it reports absent and unlinks the
entry file; and a get on a key with no entry stored under its sanitized
file name reports absent without changing the store (distinct keys that
sanitize to the same file name share one entry). -/
theorem cache_ttl_roundtrip_amended {α : Type} (fs : CacheState α) (k : String) (v : α)
    (ttlMin : Option Nat) (envTtl : Nat) (t0 t : Int) :
    (t ≤ t0 + resolveTtlMs ttlMin envTtl →
      (getCached true (setCached true fs k v ttlMin envTtl t0) k t).1 = some v) ∧
    (t0 + resolveTtlMs ttlMin envTtl < t →
      (getCached true (setCached true fs k v ttlMin envTtl t0) k t).1 = none ∧
      (getCached true (setCached true fs k v ttlMin envTtl t0) k t).2 (getCacheFilePath k) =
        none) ∧
    (fs (getCacheFilePath k) = none → getCached true fs k t = (none, fs)) := by
  have hset : setCached true fs k v ttlMin envTtl t0 (getCacheFilePath k) =
      some ⟨t0, resolveTtlMs ttlMin envTtl, v⟩ := by
    simp [setCached]
  refine ⟨?_, ?_, ?_⟩
  · intro ht
    simp [getCached, hset, not_lt.mpr ht]
  · intro ht
    constructor
    · simp [getCached, hset, ht]
    · simp [getCached, hset, ht]
  · intro hnone
    simp [getCached, hnone]

/-- C5 witness: with a 5-minute TTL written at time 0, a get at
`t = 300000` ms still returns the payload, a get at `t = 300001` ms
reports absent, and a get on an empty store reports absent and leaves
the store unchanged. -/
theorem cache_ttl_roundtrip_amended_witness :
    (getCached true (setCached true (emptyCache : CacheState Nat) "k" 42 (some 5) 15 0)
        "k" 300000).1 = some 42 ∧
    (getCached true (setCached true (emptyCache : CacheState Nat) "k" 42 (some 5) 15 0)
        "k" 300001).1 = none ∧
    getCached true (emptyCache : CacheState Nat) "never" 0 = (none, emptyCache) :=
  ⟨(cache_ttl_roundtrip_amended emptyCache "k" 42 (some 5) 15 0 300000).1 (by decide),
   ((cache_ttl_roundtrip_amended emptyCache "k" 42 (some 5) 15 0 300001).2.1 (by decide)).1,
   (cache_ttl_roundtrip_amended emptyCache "never" 42 (some 5) 15 0 0).2.2 rfl⟩

/-- C6: `correlateData` fails with the invalid-input error exactly when
one of its arguments is not an array, and on array inputs returns one
correlation record per input snapshot, in input order, each computed by
`correlateCoin` from its snapshot. -/
theorem correlateData_shape_and_errors (md : JsInput MarketSnapshot) (nd : JsInput NewsItem) :
    ((∃ msg, correlateData md nd = .error msg) ↔ md = .nonArray ∨ nd = .nonArray) ∧
    (∀ m n, md = .array m → nd = .array n →
      ∃ recs, correlateData md nd = .ok recs ∧ recs.length = m.length ∧
        ∀ (i : Nat) (hm : i < m.length) (hr : i < recs.length),
          recs.get ⟨i, hr⟩ = correlateCoin (m.get ⟨i, hm⟩) n) := by
  cases md with
  | nonArray => cases nd <;> simp [correlateData]
  | array m =>
    cases nd with
    | nonArray => simp [correlateData]
    | array n =>
      constructor
      · simp [correlateData]
      · intro m' n' hm' hn'
        obtain rfl : m = m' := by injection hm'
        obtain rfl : n = n' := by injection hn'
        refine ⟨m.map (fun coin => correlateCoin coin n), rfl, by simp, ?_⟩
        intro i hm hr
        simp [List.get_eq_getElem, List.getElem_map]

/-- C6 witness: a concrete one-snapshot call succeeds with exactly one
record. -/
theorem correlateData_shape_and_errors_witness :
    ∃ recs, correlateData (.array [wCoin]) (.array ([] : List NewsItem)) = .ok recs ∧
      recs.length = 1 := by
  obtain ⟨recs, h1, h2, _⟩ :=
    (correlateData_shape_and_errors (.array [wCoin]) (.array ([] : List NewsItem))).2
      [wCoin] [] rfl rfl
  exact ⟨recs, h1, h2⟩

/-! ## Helper lemma locating the fixed instruction text -/

set_option maxRecDepth 100000 in
theorem insufficient_data_infix_sysInstructions :
    ("Insufficient data" : String).data <:+: buildSystemInstructions.data := by
  decide

/-- C9: the prompt builder throws exactly on a non-array or empty input;
for every non-empty input the produced prompt contains the literal
substring `"Insufficient data"` (it occurs in the fixed instructions);
and a coin section carries the bulleted market-indicators block exactly
when the coin's `explanationBasis` is `"signals"` or `"both"` (the block
is never the empty string). -/
theorem buildBatchPrompt_throws_and_structure (input : JsInput Correlation) :
    ((∃ msg, buildBatchPrompt input = .error msg) ↔
      input = .nonArray ∨ input = .array []) ∧
    (∀ c cs, input = .array (c :: cs) →
      ∃ p, buildBatchPrompt input = .ok p ∧
        ("Insufficient data" : String).data <:+: p.data) ∧
    (∀ c : Correlation,
      ((c.explanationBasis = "signals" ∨ c.explanationBasis = "both") →
        formatCoinSection c =
          coinSectionHeader c ++ coinSectionNewsBlock c ++
            marketIndicatorsBlock c.fallbackSignals ++ "\n") ∧
      (¬(c.explanationBasis = "signals" ∨ c.explanationBasis = "both") →
        formatCoinSection c = coinSectionHeader c ++ coinSectionNewsBlock c ++ "\n") ∧
      marketIndicatorsBlock c.fallbackSignals ≠ "") := by
  refine ⟨?_, ?_, ?_⟩
  · cases input with
    | nonArray => simp [buildBatchPrompt]
    | array l =>
      cases l with
      | nil => simp [buildBatchPrompt]
      | cons c cs => simp [buildBatchPrompt]
  · rintro c cs rfl
    refine ⟨buildSystemInstructions ++
      "\n\nExplain the price movements for the following cryptocurrencies in the last 24 hours.\n\n" ++
      String.intercalate "\n" ((c :: cs).map formatCoinSection) ++
      "\n\nReturn your analysis as a JSON object with a \"summaries\" array matching this structure:\n" ++
      buildJsonSchema (c :: cs) ++
      "\n\nRemember: Only use the data provided. If data is insufficient for any coin, state \"Insufficient data to explain this movement\" in the summary.",
      rfl, ?_⟩
    simp only [String.data_append, List.append_assoc]
    exact insufficient_data_infix_sysInstructions.trans
      (List.prefix_append _ _).isInfix
  · intro c
    refine ⟨?_, ?_, ?_⟩
    · intro hcond
      unfold formatCoinSection
      rw [if_pos hcond]
    · intro hcond
      unfold formatCoinSection
      rw [if_neg hcond, String.append_empty]
    · intro h
      unfold marketIndicatorsBlock at h
      have hd := congrArg String.data h
      rw [String.data_append] at hd
      have hlen := congrArg List.length hd
      rw [List.length_append] at hlen
      have h1 : (("\nMarket Indicators:\n" : String)).data.length = 20 := rfl
      have h2 : (("" : String)).data.length = 0 := rfl
      omega

/-- C9 witness: a concrete one-coin prompt is produced and contains
`"Insufficient data"`, and the empty list is rejected. -/
theorem buildBatchPrompt_throws_and_structure_witness :
    (∃ p, buildBatchPrompt (.array [correlateCoin wCoin wNews]) = .ok p ∧
      ("Insufficient data" : String).data <:+: p.data) ∧
    (∃ msg, buildBatchPrompt (.array ([] : List Correlation)) = .error msg) :=
  ⟨(buildBatchPrompt_throws_and_structure (.array [correlateCoin wCoin wNews])).2.1
      (correlateCoin wCoin wNews) [] rfl,
   ((buildBatchPrompt_throws_and_structure (.array ([] : List Correlation))).1).mpr
      (Or.inr rfl)⟩

/-- C7: `relevantNews` is exactly the items matching the snapshot's
symbol, sorted by published timestamp descending with ties broken by
input order (the spec-side decorated sort `newsSortSpec`), truncated to
at most 5 and formatted; consequently its length is
`min (matching count) 5`, it is pairwise descending in `publishedAt`,
and its first element (when one exists) has a maximal timestamp among
all matching items. -/
theorem relevantNews_sorted_stable_truncated (coin : MarketSnapshot) (news : List NewsItem) :
    (correlateCoin coin news).relevantNews =
      ((newsSortSpec (news.filter (fun item => item.currencies.contains coin.symbol))).take 5).map
        formatNewsItem ∧
    (correlateCoin coin news).relevantNews.length =
      min (news.filter (fun item => item.currencies.contains coin.symbol)).length 5 ∧
    (correlateCoin coin news).relevantNews.Pairwise
      (fun a b => b.publishedAt ≤ a.publishedAt) ∧
    (∀ x ∈ news.filter (fun item => item.currencies.contains coin.symbol),
      ∀ y ∈ (correlateCoin coin news).relevantNews.head?, x.publishedAt ≤ y.publishedAt) := by
  have hrel : (correlateCoin coin news).relevantNews =
      ((sortByPublishedDesc (news.filter (fun item => item.currencies.contains coin.symbol))).take
          5).map formatNewsItem := by
    simp [correlateCoin]
  refine ⟨?_, ?_, ?_, ?_⟩
  · rw [hrel, newsSortSpec_eq_sortByPublishedDesc]
  · rw [hrel]
    simp [List.length_take, sortByPublishedDesc_length, Nat.min_comm]
  · rw [hrel]
    rw [List.pairwise_map]
    exact (sortByPublishedDesc_pairwise _).sublist (List.take_sublist 5 _)
  · intro x hx y hy
    have hx2 : x ∈ sortByPublishedDesc
        (news.filter (fun item => item.currencies.contains coin.symbol)) :=
      mem_sortByPublishedDesc.mpr hx
    have hpair := sortByPublishedDesc_pairwise
      (news.filter (fun item => item.currencies.contains coin.symbol))
    rw [hrel] at hy
    rcases hsf : sortByPublishedDesc
        (news.filter (fun item => item.currencies.contains coin.symbol)) with _ | ⟨h0, t⟩
    · rw [hsf] at hx2
      simp at hx2
    · rw [hsf] at hx2 hpair hy
      simp only [List.take_succ_cons, List.map_cons, List.head?_cons, Option.mem_def,
        Option.some.injEq] at hy
      obtain ⟨hall, _⟩ := List.pairwise_cons.mp hpair
      have hle : x.publishedAt ≤ h0.publishedAt := by
        rcases List.mem_cons.mp hx2 with rfl | hxt
        · exact le_rfl
        · exact hall x hxt
      rw [← hy]
      exact hle
/-- C7 witness: for the ten staggered matching items the output has
exactly 5 entries and its first element carries the most recent
timestamp, 100. -/
theorem relevantNews_sorted_stable_truncated_witness :
    (correlateCoin wCoin wNews).relevantNews.length = 5 ∧
    ((correlateCoin wCoin wNews).relevantNews.head?).map (fun n => n.publishedAt) =
      some 100 := by
  constructor
  · rw [(relevantNews_sorted_stable_truncated wCoin wNews).2.1]
    decide
  · decide
